import Mathlib

/-!
# EmployeeProjects view logic

Shallow embedding of the logic of
`src/resource-management/src/pages/employee/EmployeeProjects.jsx`:
the search/status filter (`filteredProjects`), the summary counts
(`projectStats`), the expansion toggle (`toggleProjectExpansion`), the loader
(`loadProjects`) and the empty-state message of the project list.

JavaScript strings are embedded as Lean strings (on well-formed strings,
substring search over characters agrees with the search over UTF-16 code
units).  `String.prototype.includes` is embedded as substring search
(`includes`).  `String.prototype.toLowerCase`
is a built-in of the JavaScript runtime, not code of this repository; the
definitions take it as the parameter `toLowerCase`; the theorems assume of it
only what the built-in guarantees (the empty string is kept; on ASCII strings
the letters A to Z are lowered and nothing else changes), and `asciiLower` is
the instance used for concrete evaluation.
-/

namespace EmployeeProjects

/-! ## Data model -/

/-- The fields of a project record that the view logic reads: `id`, `name`,
`description` (optional: `none` stands for an absent, `undefined` or `null`
description) and `status`. -/
structure Project where
  id : String
  name : String
  description : Option String
  status : String
deriving DecidableEq, Repr

/-- The JavaScript values produced by the expressions of the component:
`undefined` (the result of `?.` on an absent description), booleans and
strings. -/
inductive JSVal where
  | undefined
  | bool (b : Bool)
  | str (s : String)
deriving DecidableEq, Repr

/-- JavaScript `ToBoolean`: `undefined` and the empty string are falsy. -/
def JSVal.truthy : JSVal → Bool
  | .undefined => false
  | .bool b => b
  | .str s => s != ""

/-- JavaScript `a || b`: the left operand when it is truthy, else the right. -/
def jsOr (a b : JSVal) : JSVal :=
  if a.truthy then a else b

/-- JavaScript `a && b`: the left operand when it is falsy, else the right. -/
def jsAnd (a b : JSVal) : JSVal :=
  if a.truthy then b else a

/-! ## String built-ins -/

/-- Does the character list `s` start with the character list `t`? -/
def startsWithChars : List Char → List Char → Bool
  | _, [] => true
  | [], _ :: _ => false
  | c :: cs, d :: ds => c == d && startsWithChars cs ds

/-- Does `t` occur in `s` at some position (scanning from position 0)? -/
def includesChars : List Char → List Char → Bool
  | [], t => startsWithChars [] t
  | c :: cs, t => startsWithChars (c :: cs) t || includesChars cs t

/-- JavaScript `s.includes(t)`: `t` occurs in `s` as a contiguous substring. -/
def includes (s t : String) : Bool :=
  includesChars s.data t.data

/-- Lower-casing of the letters A to Z, every other character unchanged: the
ASCII fragment of `String.prototype.toLowerCase`.  It returns what the
built-in returns on strings whose other characters have no lower-case form of
their own (ASCII digits and punctuation, letters that are already small). -/
def asciiLower (s : String) : String :=
  String.mk (s.data.map Char.toLower)

/-! ## Filter (lines 60-65) and aggregator (lines 67-72) -/

section Filter

variable (toLowerCase : String → String)

/-- Lines 61-62: `project.name.toLowerCase().includes(searchTerm.toLowerCase()) ||
project.description?.toLowerCase().includes(searchTerm.toLowerCase())`. -/
def matchesSearch (searchTerm : String) (project : Project) : JSVal :=
  jsOr (.bool (includes (toLowerCase project.name) (toLowerCase searchTerm)))
    (match project.description with
      | none => .undefined
      | some d => .bool (includes (toLowerCase d) (toLowerCase searchTerm)))

/-- Line 63: `statusFilter === 'all' || project.status === statusFilter`. -/
def matchesStatus (statusFilter : String) (project : Project) : JSVal :=
  jsOr (.bool (statusFilter == "all")) (.bool (project.status == statusFilter))

/-- Line 64: the value returned by the filter callback,
`matchesSearch && matchesStatus`. -/
def filterCallback (searchTerm statusFilter : String) (project : Project) : JSVal :=
  jsAnd (matchesSearch toLowerCase searchTerm project) (matchesStatus statusFilter project)

/-- Lines 60-65: `projects.filter(callback)` keeps, in order, the projects on
which the callback returns a truthy value. -/
def filteredProjects (projects : List Project) (searchTerm statusFilter : String) :
    List Project :=
  projects.filter (fun project => (filterCallback toLowerCase searchTerm statusFilter project).truthy)

end Filter

/-- The object built at lines 67-72. -/
structure ProjectStats where
  total : Nat
  active : Nat
  completed : Nat
  onHold : Nat
deriving DecidableEq, Repr

/-- Lines 67-72: the summary counts over the loaded list. -/
def projectStats (projects : List Project) : ProjectStats where
  total := projects.length
  active := (projects.filter (fun p => p.status == "active")).length
  completed := (projects.filter (fun p => p.status == "completed")).length
  onHold := (projects.filter (fun p => p.status == "on-hold")).length

/-! ## View state -/

/-- The five `useState` cells of the component (lines 19-23). -/
structure ViewState where
  projects : List Project
  loading : Bool
  expandedProjectId : Option String
  searchTerm : String
  statusFilter : String
deriving DecidableEq, Repr

/-- The initial values passed to `useState` (lines 19-23); `none` is `null`. -/
def initialState : ViewState where
  projects := []
  loading := true
  expandedProjectId := none
  searchTerm := ""
  statusFilter := "all"

/-! ## Expansion toggle (lines 41-43) and expanded condition (lines 246, 256) -/

/-- Lines 41-43:
`setExpandedProjectId(expandedProjectId === projectId ? null : projectId)`. -/
def toggleProjectExpansion (s : ViewState) (projectId : String) : ViewState :=
  { s with expandedProjectId := if s.expandedProjectId == some projectId then none else some projectId }

/-- Lines 246 and 256: `expandedProjectId === project.id`. -/
def isExpanded (s : ViewState) (project : Project) : Bool :=
  s.expandedProjectId == some project.id

/-- The state after a sequence of clicks on project headers, oldest first. -/
def toggleAll (s : ViewState) (projectIds : List String) : ViewState :=
  projectIds.foldl toggleProjectExpansion s

/-! ## Loader (lines 29-39) -/

/-- The value of `useAuth().currentUser` when it is not `null`. -/
structure User where
  uid : String
deriving DecidableEq, Repr

/-- The observable steps of `loadProjects`, in the order they happen. -/
inductive Effect where
  | setLoading (b : Bool)
  | request (uid : String)
  | setProjects (projectsData : List Project)
  | consoleError (message : String) (error : String)
deriving DecidableEq, Repr

/-- The view state together with the steps performed so far, oldest first. -/
structure World where
  view : ViewState
  log : List Effect
deriving DecidableEq, Repr

/-- Component code: it may throw (the error is a string) and it updates the
world; the world is kept when an error is thrown. -/
abbrev Component := ExceptT String (StateM World)

/-- The setter `setLoading` of line 20. -/
def setLoading (b : Bool) : Component Unit :=
  modify fun w => { view := { w.view with loading := b }, log := w.log ++ [.setLoading b] }

/-- The setter `setProjects` of line 19. -/
def setProjects (projectsData : List Project) : Component Unit :=
  modify fun w => { view := { w.view with projects := projectsData }, log := w.log ++ [.setProjects projectsData] }

/-- The call `console.error(message, error)` of line 35. -/
def consoleError (message error : String) : Component Unit :=
  modify fun w => { w with log := w.log ++ [.consoleError message error] }

/-- The property read `currentUser.uid` of line 32: a `TypeError` when
`currentUser` is `null`. -/
def readUid (currentUser : Option User) : Component String :=
  match currentUser with
  | some user => pure user.uid
  | none => throw "TypeError: Cannot read properties of null"

/-- The awaited call `getEmployeeProjectsWithDetails(uid)` of line 32.  The
data-access service is external: `service uid` is the outcome of the request,
the list it resolves to or the error it rejects with. -/
def getEmployeeProjectsWithDetails (service : String → Except String (List Project))
    (uid : String) : Component (List Project) := do
  modify fun w => { w with log := w.log ++ [.request uid] }
  match service uid with
  | .ok projectsData => pure projectsData
  | .error error => throw error

/-- Lines 29-39: `loadProjects`, with its `try`/`catch`/`finally`. -/
def loadProjects (currentUser : Option User)
    (service : String → Except String (List Project)) : Component Unit := do
  try
    setLoading true
    let uid ← readUid currentUser
    let projectsData ← getEmployeeProjectsWithDetails service uid
    setProjects projectsData
  catch error =>
    consoleError "Error loading projects:" error
  finally
    setLoading false

/-- Run component code from a world: the outcome (a value, or the error that
escaped) and the world it leaves. -/
def Component.runFrom {α : Type} (x : Component α) (w : World) : Except String α × World :=
  Id.run (StateT.run (ExceptT.run x) w)

/-! ## Rendering of the project list (lines 74-80, 190-192, 438-447) -/

/-- Lines 442-444: the text of the empty state,
`searchTerm || statusFilter !== 'all' ? ... : ...`. -/
def emptyStateMessage (searchTerm statusFilter : String) : String :=
  if (jsOr (.str searchTerm) (.bool (statusFilter != "all"))).truthy then
    "No projects match your filters"
  else
    "You are not currently assigned to any projects"

/-- What the "Projects List" card shows: the cards of the filtered projects,
or the empty state with its message. -/
inductive ProjectsSection where
  | cards (items : List Project)
  | emptyState (message : String)
deriving DecidableEq, Repr

/-- What the component returns: the loading placeholder of lines 74-80, or the
page with the summary counts and the project list. -/
inductive Rendered where
  | loadingPlaceholder
  | page (stats : ProjectStats) (listing : ProjectsSection)
deriving DecidableEq, Repr

/-- Line 192: `filteredProjects.length > 0 ? cards : empty state`. -/
def projectsSection (toLowerCase : String → String) (s : ViewState) : ProjectsSection :=
  if (filteredProjects toLowerCase s.projects s.searchTerm s.statusFilter).length > 0 then
    .cards (filteredProjects toLowerCase s.projects s.searchTerm s.statusFilter)
  else
    .emptyState (emptyStateMessage s.searchTerm s.statusFilter)

/-- The component body after the hooks: lines 74-80 return early while
loading, otherwise the page is rendered. -/
def render (toLowerCase : String → String) (s : ViewState) : Rendered :=
  if s.loading then .loadingPlaceholder
  else .page (projectStats s.projects) (projectsSection toLowerCase s)

/-! ## Auxiliary definitions used in the statements -/

/-- Truthiness of the description disjunct of `matchesSearch`. -/
def descriptionMatches (toLowerCase : String → String) (searchTerm : String)
    (project : Project) : Bool :=
  match project.description with
  | none => false
  | some d => includes (toLowerCase d) (toLowerCase searchTerm)

/-- Three active and two completed projects, interleaved. -/
def threeActiveTwoCompleted : List Project :=
  [⟨"p1", "Website Revamp", some "New landing pages", "active"⟩,
   ⟨"p2", "Audit", none, "completed"⟩,
   ⟨"p3", "Mobile App", none, "active"⟩,
   ⟨"p4", "Migration", some "", "completed"⟩,
   ⟨"p5", "Alpha", some "Pilot", "active"⟩]

/-- Is the status none of the three that the aggregator counts? -/
def uncountedStatus (p : Project) : Bool :=
  p.status != "active" && p.status != "completed" && p.status != "on-hold"

/-- Are the two character lists equal up to the case of the letters A to Z:
same length and, position by position, the same character or one the
lower-case form of the other? -/
def sameUpToCaseChars : List Char → List Char → Bool
  | [], [] => true
  | a :: as, b :: bs => (a == b || a.toLower == b || a == b.toLower) && sameUpToCaseChars as bs
  | [], _ :: _ => false
  | _ :: _, [] => false

/-- Do two strings differ only in the case of their letters A to Z? -/
def sameUpToCase (s t : String) : Bool :=
  sameUpToCaseChars s.data t.data

/-- Is every character of the string an ASCII character (code below 128)? -/
def isAsciiString (s : String) : Bool :=
  s.data.all (fun c => c.toNat < 128)

/-- Are the two strings made of ASCII characters and equal up to the case of
their letters? -/
def asciiCaseVariant (s t : String) : Bool :=
  isAsciiString s && isAsciiString t && sameUpToCase s t

/-- The same for optional descriptions: both absent, or both present, made of
ASCII characters and equal up to the case of their letters. -/
def asciiCaseVariantOpt : Option String → Option String → Bool
  | none, none => true
  | some s, some t => asciiCaseVariant s t
  | none, some _ => false
  | some _, none => false

/-- Is `lower` the lower-case form of the capital letter `upper`?  The pairs
are those of the letters A to Z (codes 65 to 90, the small letter 32 above)
and the pair of I (code 73) with the dotless small i (code 305, U+0131), whose
upper-case form in Unicode is I. -/
def isCasePair (upper lower : Char) : Bool :=
  (65 ≤ upper.toNat && upper.toNat ≤ 90 && lower.toNat == upper.toNat + 32)
    || (upper.toNat == 73 && lower.toNat == 305)

/-- Are the two character lists of the same length and, position by position,
the same character or the two case forms of one letter? -/
def differOnlyInCaseChars : List Char → List Char → Bool
  | [], [] => true
  | a :: as, b :: bs =>
    (a == b || isCasePair a b || isCasePair b a) && differOnlyInCaseChars as bs
  | [], _ :: _ => false
  | _ :: _, [] => false

/-- Do the two strings differ only in the case of their letters? -/
def differOnlyInCase (s t : String) : Bool :=
  differOnlyInCaseChars s.data t.data

/-- The world after a load whose request was answered with `outcome`. -/
def afterLoad (w : World) (uid : String) (outcome : Except String (List Project)) : World :=
  match outcome with
  | .ok projectsData =>
    { view := { w.view with projects := projectsData, loading := false }
      log := w.log ++ [.setLoading true, .request uid, .setProjects projectsData,
        .setLoading false] }
  | .error error =>
    { view := { w.view with loading := false }
      log := w.log ++ [.setLoading true, .request uid,
        .consoleError "Error loading projects:" error, .setLoading false] }

/-- The summary object as the component body computes it (lines 67-72): from
the `projects` cell alone; the cells `searchTerm` and `statusFilter` are not
read. -/
def summaryCounts (s : ViewState) : ProjectStats :=
  projectStats s.projects

/-! ## Auxiliary lemmas -/

theorem startsWithChars_iff (s t : List Char) :
    startsWithChars s t = true ↔ t <+: s := by
  induction s generalizing t with
  | nil => cases t <;> simp [startsWithChars]
  | cons c cs ih =>
    cases t with
    | nil => simp [startsWithChars]
    | cons d ds =>
      simp only [startsWithChars, Bool.and_eq_true, beq_iff_eq, ih, List.cons_prefix_cons]
      constructor
      · rintro ⟨h1, h2⟩
        exact ⟨h1.symm, h2⟩
      · rintro ⟨h1, h2⟩
        exact ⟨h1.symm, h2⟩

/-- The scan `includesChars` decides the substring relation. -/
theorem includesChars_iff (s t : List Char) :
    includesChars s t = true ↔ t <:+: s := by
  induction s with
  | nil =>
    simp only [includesChars, startsWithChars_iff, List.prefix_nil, List.infix_nil]
  | cons c cs ih =>
    simp only [includesChars, Bool.or_eq_true, startsWithChars_iff, ih, List.infix_cons_iff]

theorem includes_iff (s t : String) :
    includes s t = true ↔ t.data <:+: s.data :=
  includesChars_iff s.data t.data

theorem includes_empty (s : String) : includes s "" = true := by
  rw [includes_iff]
  exact List.nil_infix

theorem includes_self (s : String) : includes s s = true :=
  (includes_iff s s).mpr (List.infix_refl _)

theorem truthy_jsOr (a b : JSVal) : (jsOr a b).truthy = (a.truthy || b.truthy) := by
  unfold jsOr
  cases h : a.truthy <;> simp [h]

theorem truthy_jsAnd (a b : JSVal) : (jsAnd a b).truthy = (a.truthy && b.truthy) := by
  unfold jsAnd
  cases h : a.truthy <;> simp [h]

theorem truthy_matchesSearch (toLowerCase : String → String) (s : String) (p : Project) :
    (matchesSearch toLowerCase s p).truthy =
      (includes (toLowerCase p.name) (toLowerCase s) || descriptionMatches toLowerCase s p) := by
  unfold matchesSearch descriptionMatches
  rw [truthy_jsOr]
  cases p.description <;> rfl

theorem truthy_matchesStatus (f : String) (p : Project) :
    (matchesStatus f p).truthy = (f == "all" || p.status == f) := by
  unfold matchesStatus
  rw [truthy_jsOr]
  rfl

theorem truthy_filterCallback (toLowerCase : String → String) (s f : String) (p : Project) :
    (filterCallback toLowerCase s f p).truthy =
      ((includes (toLowerCase p.name) (toLowerCase s) || descriptionMatches toLowerCase s p)
        && (f == "all" || p.status == f)) := by
  unfold filterCallback
  rw [truthy_jsAnd, truthy_matchesSearch, truthy_matchesStatus]

theorem asciiLower_empty : asciiLower "" = "" := by decide

/-- With an empty search term the filter keeps exactly the projects that pass
the status test. -/
theorem filteredProjects_empty_search (toLowerCase : String → String)
    (h0 : toLowerCase "" = "") (L : List Project) (f : String) :
    filteredProjects toLowerCase L "" f = L.filter (fun p => f == "all" || p.status == f) := by
  unfold filteredProjects
  congr 1
  funext p
  rw [truthy_filterCallback, h0, includes_empty]
  rfl

/-! ## Filter: identity, characterisation, status filter -/

/-- C1: with search term "" and status filter "all" the filtered list is the
list itself (same projects, same order, none dropped), for every list of
projects and whatever the descriptions are, present or absent. -/
theorem filteredProjects_identity (toLowerCase : String → String)
    (h0 : toLowerCase "" = "") (L : List Project) :
    filteredProjects toLowerCase L "" "all" = L := by
  rw [filteredProjects_empty_search toLowerCase h0]
  simp

theorem filteredProjects_identity_witness :
    asciiLower "" = "" ∧
      filteredProjects asciiLower
        [⟨"p1", "Website Revamp", none, "active"⟩, ⟨"p2", "Audit", some "Yearly", "cancelled"⟩]
        "" "all" =
        [⟨"p1", "Website Revamp", none, "active"⟩, ⟨"p2", "Audit", some "Yearly", "cancelled"⟩] :=
  ⟨asciiLower_empty, filteredProjects_identity asciiLower asciiLower_empty _⟩


theorem length_filter_add_three (L : List Project) :
    (L.filter (fun p => p.status == "active")).length
      + (L.filter (fun p => p.status == "completed")).length
      + (L.filter (fun p => p.status == "on-hold")).length
      + (L.filter uncountedStatus).length = L.length := by
  induction L with
  | nil => rfl
  | cons p ps ih =>
    simp only [List.filter_cons, uncountedStatus, List.length_cons] at ih ⊢
    by_cases h1 : p.status = "active"
    · simp [h1]
      omega
    · by_cases h2 : p.status = "completed"
      · simp [h2]
        omega
      · by_cases h3 : p.status = "on-hold"
        · simp [h3]
          omega
        · simp [h1, h2, h3]
          omega

/-- C2: `projectStats.total` is the length of the list; the counts `active`,
`completed` and `onHold` sum to at most `total`; together with the number of
projects whose status is none of these three (such as cancelled or an
unrecognised value) they sum to exactly `total`, so such a project is counted
in `total` and in no status bucket: inserting one anywhere in the list raises
`total` by one and leaves the three counts as they were. -/
theorem projectStats_counts (L L1 L2 : List Project) (status id name : String)
    (description : Option String) :
    (projectStats L).total = L.length
      ∧ (projectStats L).active + (projectStats L).completed + (projectStats L).onHold
          ≤ (projectStats L).total
      ∧ (projectStats L).active + (projectStats L).completed + (projectStats L).onHold
          + (L.filter uncountedStatus).length = (projectStats L).total
      ∧ projectStats (L1 ++ ⟨id, name, description, status⟩ :: L2) =
          { total := (projectStats (L1 ++ L2)).total + 1
            active := (projectStats (L1 ++ L2)).active + (if status == "active" then 1 else 0)
            completed :=
              (projectStats (L1 ++ L2)).completed + (if status == "completed" then 1 else 0)
            onHold := (projectStats (L1 ++ L2)).onHold + (if status == "on-hold" then 1 else 0) }
      ∧ projectStats (L1 ++ ⟨id, name, description, "cancelled"⟩ :: L2) =
          { projectStats (L1 ++ L2) with total := (projectStats (L1 ++ L2)).total + 1 } := by
  have key := length_filter_add_three L
  refine ⟨rfl, ?_, key, ?_, ?_⟩
  · show _ ≤ L.length
    simp only [projectStats]
    omega
  · by_cases h1 : status = "active"
    · simp [h1, projectStats, List.filter_append, List.filter_cons]
      omega
    · by_cases h2 : status = "completed"
      · simp [h2, projectStats, List.filter_append, List.filter_cons]
        omega
      · by_cases h3 : status = "on-hold"
        · simp [h3, projectStats, List.filter_append, List.filter_cons]
          omega
        · simp [h1, h2, h3, projectStats, List.filter_append, List.filter_cons]
          omega
  · simp [projectStats, List.filter_append, List.filter_cons]
    omega

/-- C3: a project is in the filtered list if and only if it is in the list,
the status filter is "all" or equals its status, and the search term is empty
or its lower-cased form is a substring of the lower-cased name or of the
lower-cased description when there is one; without a description the name
alone decides. -/
theorem mem_filteredProjects_iff (toLowerCase : String → String)
    (h0 : toLowerCase "" = "") (L : List Project) (s f : String) (p : Project) :
    (p ∈ filteredProjects toLowerCase L s f ↔
      p ∈ L ∧ (f = "all" ∨ p.status = f) ∧
        (s = "" ∨ (toLowerCase s).data <:+: (toLowerCase p.name).data ∨
          ∃ d, p.description = some d ∧ (toLowerCase s).data <:+: (toLowerCase d).data))
    ∧ (p.description = none →
        (p ∈ filteredProjects toLowerCase L s f ↔
          p ∈ L ∧ (f = "all" ∨ p.status = f) ∧
            (s = "" ∨ (toLowerCase s).data <:+: (toLowerCase p.name).data))) := by
  have hempty : s = "" → (toLowerCase s).data <:+: (toLowerCase p.name).data := by
    intro hs
    rw [hs, h0]
    exact List.nil_infix
  have hdesc : descriptionMatches toLowerCase s p = true ↔
      ∃ d, p.description = some d ∧ (toLowerCase s).data <:+: (toLowerCase d).data := by
    unfold descriptionMatches
    cases hd : p.description with
    | none => simp
    | some d => simp [includes_iff]
  have main : p ∈ filteredProjects toLowerCase L s f ↔
      p ∈ L ∧ (f = "all" ∨ p.status = f) ∧
        (s = "" ∨ (toLowerCase s).data <:+: (toLowerCase p.name).data ∨
          ∃ d, p.description = some d ∧ (toLowerCase s).data <:+: (toLowerCase d).data) := by
    unfold filteredProjects
    rw [List.mem_filter, truthy_filterCallback]
    simp only [Bool.and_eq_true, Bool.or_eq_true, beq_iff_eq, includes_iff, hdesc]
    constructor
    · rintro ⟨hL, hsearch, hstatus⟩
      exact ⟨hL, hstatus, Or.inr hsearch⟩
    · rintro ⟨hL, hstatus, hsearch⟩
      refine ⟨hL, ?_, hstatus⟩
      rcases hsearch with hs | hs
      · exact Or.inl (hempty hs)
      · exact hs
  refine ⟨main, ?_⟩
  intro hnone
  rw [main]
  simp [hnone]

theorem mem_filteredProjects_iff_witness :
    asciiLower "" = "" ∧
      (⟨"p3", "Mobile App", none, "active"⟩ ∈
        filteredProjects asciiLower threeActiveTwoCompleted "APP" "active") :=
  ⟨asciiLower_empty,
    ((mem_filteredProjects_iff asciiLower asciiLower_empty threeActiveTwoCompleted
        "APP" "active" ⟨"p3", "Mobile App", none, "active"⟩).2 rfl).mpr
      ⟨by decide, Or.inr rfl, Or.inr ((includes_iff _ _).mp (by decide))⟩⟩

/-- C4: with an empty search term and a status filter other than "all", the
filtered list is exactly the sublist of the projects whose status equals the
filter, in their original order; on three active and two completed projects
the filter "active" yields the three active ones in order. -/
theorem filteredProjects_status (toLowerCase : String → String)
    (h0 : toLowerCase "" = "") (L : List Project) (f : String) (hf : f ≠ "all") :
    filteredProjects toLowerCase L "" f = L.filter (fun p => p.status == f)
      ∧ List.Sublist (filteredProjects toLowerCase L "" f) L
      ∧ filteredProjects toLowerCase threeActiveTwoCompleted "" "active" =
          [⟨"p1", "Website Revamp", some "New landing pages", "active"⟩,
           ⟨"p3", "Mobile App", none, "active"⟩,
           ⟨"p5", "Alpha", some "Pilot", "active"⟩] := by
  have hEq : filteredProjects toLowerCase L "" f = L.filter (fun p => p.status == f) := by
    rw [filteredProjects_empty_search toLowerCase h0]
    congr 1
    funext p
    simp [hf]
  refine ⟨hEq, ?_, ?_⟩
  · rw [hEq]
    exact List.filter_sublist L
  · rw [filteredProjects_empty_search toLowerCase h0]
    decide

theorem filteredProjects_status_witness :
    asciiLower "" = "" ∧ "completed" ≠ "all" ∧
      filteredProjects asciiLower threeActiveTwoCompleted "" "completed" =
        threeActiveTwoCompleted.filter (fun p => p.status == "completed") :=
  ⟨asciiLower_empty, by decide,
    (filteredProjects_status asciiLower asciiLower_empty threeActiveTwoCompleted
      "completed" (by decide)).1⟩

theorem toNat_ofNat_small (m : Nat) (h : m < 55296) : (Char.ofNat m).toNat = m := by
  have hv : m.isValidChar := Or.inl h
  simp only [Char.ofNat, hv, dite_true, Char.toNat, Char.ofNatAux]
  simp [UInt32.toNat]

theorem toLower_of_not (d : Char) (h : ¬ (d.toNat ≥ 65 ∧ d.toNat ≤ 90)) : d.toLower = d := by
  simp only [Char.toLower, h, if_false]

theorem toLower_toLower (c : Char) : c.toLower.toLower = c.toLower := by
  by_cases h : c.toNat ≥ 65 ∧ c.toNat ≤ 90
  · have h1 : c.toLower = Char.ofNat (c.toNat + 32) := by
      simp only [Char.toLower, h, and_self, if_true]
    have h2 : c.toLower.toNat = c.toNat + 32 := by
      rw [h1]
      exact toNat_ofNat_small _ (by omega)
    exact toLower_of_not _ (by omega)
  · rw [toLower_of_not c h, toLower_of_not c h]

theorem map_toLower_of_sameUpToCaseChars (as bs : List Char)
    (h : sameUpToCaseChars as bs = true) : as.map Char.toLower = bs.map Char.toLower := by
  induction as generalizing bs with
  | nil =>
    cases bs with
    | nil => rfl
    | cons b bs => simp [sameUpToCaseChars] at h
  | cons a as ih =>
    cases bs with
    | nil => simp [sameUpToCaseChars] at h
    | cons b bs =>
      simp only [sameUpToCaseChars, Bool.and_eq_true, Bool.or_eq_true, beq_iff_eq] at h
      obtain ⟨hab, hrest⟩ := h
      have hhead : a.toLower = b.toLower := by
        rcases hab with (hab | hab) | hab
        · rw [hab]
        · rw [← hab, toLower_toLower]
        · rw [hab, toLower_toLower]
      simp only [List.map_cons, hhead, ih bs hrest]

theorem asciiLower_of_sameUpToCase (s t : String) (h : sameUpToCase s t = true) :
    asciiLower s = asciiLower t := by
  unfold asciiLower
  rw [map_toLower_of_sameUpToCaseChars s.data t.data h]

/-- The filter callback depends on the search term only through its
lower-cased form. -/
theorem filterCallback_congr_term (toLowerCase : String → String) (s t f : String)
    (p : Project) (hst : toLowerCase s = toLowerCase t) :
    filterCallback toLowerCase s f p = filterCallback toLowerCase t f p := by
  simp only [filterCallback, matchesSearch, hst]

/-- The filter callback depends on the name and the description only through
their lower-cased forms. -/
theorem filterCallback_congr_project (toLowerCase : String → String) (s f : String)
    (p : Project) (name2 : String) (description2 : Option String)
    (hname : toLowerCase p.name = toLowerCase name2)
    (hdesc : p.description.map toLowerCase = description2.map toLowerCase) :
    filterCallback toLowerCase s f { p with name := name2, description := description2 } =
      filterCallback toLowerCase s f p := by
  simp only [filterCallback, matchesSearch, matchesStatus, hname]
  cases hd : p.description with
  | none =>
    cases description2 with
    | none => rfl
    | some e => simp [hd] at hdesc
  | some d =>
    cases description2 with
    | none => simp [hd] at hdesc
    | some e =>
      simp only [hd, Option.map_some', Option.some.injEq] at hdesc
      simp only [hdesc]

theorem toLowerCase_eq_of_asciiCaseVariant (toLowerCase : String → String)
    (hascii : ∀ s, isAsciiString s = true → toLowerCase s = asciiLower s)
    (s t : String) (h : asciiCaseVariant s t = true) : toLowerCase s = toLowerCase t := by
  simp only [asciiCaseVariant, Bool.and_eq_true] at h
  obtain ⟨⟨hs, ht⟩, hst⟩ := h
  rw [hascii s hs, hascii t ht]
  exact asciiLower_of_sameUpToCase s t hst

theorem map_toLowerCase_eq_of_asciiCaseVariantOpt (toLowerCase : String → String)
    (hascii : ∀ s, isAsciiString s = true → toLowerCase s = asciiLower s)
    (d e : Option String) (h : asciiCaseVariantOpt d e = true) :
    d.map toLowerCase = e.map toLowerCase := by
  cases d <;> cases e <;> simp [asciiCaseVariantOpt] at h ⊢
  exact toLowerCase_eq_of_asciiCaseVariant toLowerCase hascii _ _ h

theorem filteredProjects_congr_term (toLowerCase : String → String) (L : List Project)
    (s t f : String) (hst : toLowerCase s = toLowerCase t) :
    filteredProjects toLowerCase L s f = filteredProjects toLowerCase L t f := by
  unfold filteredProjects
  congr 1
  funext q
  rw [filterCallback_congr_term toLowerCase s t f q hst]

/-- C5, as the code has it: the search compares lower-cased forms.  For a
lower-casing that acts on ASCII strings as the built-in does (A to Z lowered,
every other ASCII character kept): two search terms made of ASCII characters
that differ only in the case of their letters select the same projects, and
match or fail on every project alike; a project whose name and description
are replaced by ASCII variants in another case matches exactly as before; two
search terms (names, descriptions) of any characters with the same lower-cased
form behave alike; and a project named "Alpha" matches the search term "alpha"
under the status filter "all". -/
theorem search_case_insensitive (toLowerCase : String → String)
    (hascii : ∀ s, isAsciiString s = true → toLowerCase s = asciiLower s)
    (L : List Project) (f : String) (p : Project) :
    (∀ s t, asciiCaseVariant s t = true →
        filteredProjects toLowerCase L s f = filteredProjects toLowerCase L t f
          ∧ ((filterCallback toLowerCase s f p).truthy = true ↔
              (filterCallback toLowerCase t f p).truthy = true))
      ∧ (∀ s name2 description2, asciiCaseVariant p.name name2 = true →
          asciiCaseVariantOpt p.description description2 = true →
          ((filterCallback toLowerCase s f
              { p with name := name2, description := description2 }).truthy = true ↔
            (filterCallback toLowerCase s f p).truthy = true))
      ∧ (∀ s t, toLowerCase s = toLowerCase t →
          filteredProjects toLowerCase L s f = filteredProjects toLowerCase L t f
            ∧ ((filterCallback toLowerCase s f p).truthy = true ↔
                (filterCallback toLowerCase t f p).truthy = true))
      ∧ (∀ s name2 description2, toLowerCase p.name = toLowerCase name2 →
          p.description.map toLowerCase = description2.map toLowerCase →
          ((filterCallback toLowerCase s f
              { p with name := name2, description := description2 }).truthy = true ↔
            (filterCallback toLowerCase s f p).truthy = true))
      ∧ (∀ id status description,
          (filterCallback toLowerCase "alpha" "all" ⟨id, "Alpha", description, status⟩).truthy
            = true)
      ∧ (∀ id status description,
          ⟨id, "Alpha", description, status⟩ ∈
            filteredProjects toLowerCase [⟨id, "Alpha", description, status⟩] "alpha" "all") := by
  have hterm : ∀ s t, toLowerCase s = toLowerCase t →
      filteredProjects toLowerCase L s f = filteredProjects toLowerCase L t f
        ∧ ((filterCallback toLowerCase s f p).truthy = true ↔
            (filterCallback toLowerCase t f p).truthy = true) := by
    intro s t hst
    refine ⟨filteredProjects_congr_term toLowerCase L s t f hst, ?_⟩
    rw [filterCallback_congr_term toLowerCase s t f p hst]
  have hproj : ∀ s name2 description2, toLowerCase p.name = toLowerCase name2 →
      p.description.map toLowerCase = description2.map toLowerCase →
      ((filterCallback toLowerCase s f
          { p with name := name2, description := description2 }).truthy = true ↔
        (filterCallback toLowerCase s f p).truthy = true) := by
    intro s name2 description2 hname hdesc
    rw [filterCallback_congr_project toLowerCase s f p name2 description2 hname hdesc]
  have hAlpha : ∀ id status description,
      (filterCallback toLowerCase "alpha" "all" ⟨id, "Alpha", description, status⟩).truthy
        = true := by
    intro id status description
    have h1 : toLowerCase "Alpha" = toLowerCase "alpha" :=
      toLowerCase_eq_of_asciiCaseVariant toLowerCase hascii "Alpha" "alpha" (by decide)
    rw [truthy_filterCallback]
    show ((includes (toLowerCase "Alpha") (toLowerCase "alpha") || _) && _) = true
    rw [h1, includes_self]
    rfl
  refine ⟨?_, ?_, hterm, hproj, hAlpha, ?_⟩
  · intro s t hst
    exact hterm s t (toLowerCase_eq_of_asciiCaseVariant toLowerCase hascii s t hst)
  · intro s name2 description2 hname hdesc
    exact hproj s name2 description2
      (toLowerCase_eq_of_asciiCaseVariant toLowerCase hascii _ _ hname)
      (map_toLowerCase_eq_of_asciiCaseVariantOpt toLowerCase hascii _ _ hdesc)
  · intro id status description
    unfold filteredProjects
    rw [List.mem_filter]
    exact ⟨List.mem_singleton.mpr rfl, hAlpha id status description⟩

theorem search_case_insensitive_witness :
    asciiCaseVariant "ALPHA" "alpha" = true
      ∧ filteredProjects asciiLower threeActiveTwoCompleted "ALPHA" "all" =
        filteredProjects asciiLower threeActiveTwoCompleted "alpha" "all"
      ∧ filteredProjects asciiLower threeActiveTwoCompleted "alpha" "all" =
        [⟨"p5", "Alpha", some "Pilot", "active"⟩] :=
  ⟨by decide,
    ((search_case_insensitive asciiLower (fun _ _ => rfl) threeActiveTwoCompleted "all"
      ⟨"p5", "Alpha", some "Pilot", "active"⟩).1 "ALPHA" "alpha" (by decide)).1,
    by decide⟩

/-- C5 as stated fails: "IRMAK" and the word written with the dotless small i
(U+0131, whose capital is I) differ only in the case of their letters, the
lower-cased forms are "irmak" and the dotless word itself, and a project named
with the dotless word matches the dotless search term but not "IRMAK"; nor
does a project named "IRMAK" match the dotless term, although the project
with the dotless name does. -/
theorem search_case_sensitive_dotless_i :
    differOnlyInCase "ırmak" "IRMAK" = true
      ∧ asciiLower "IRMAK" = "irmak"
      ∧ asciiLower "ırmak" = "ırmak"
      ∧ (filterCallback asciiLower "ırmak" "all" ⟨"p1", "ırmak", none, "active"⟩).truthy = true
      ∧ (filterCallback asciiLower "IRMAK" "all" ⟨"p1", "ırmak", none, "active"⟩).truthy = false
      ∧ (filterCallback asciiLower "ırmak" "all" ⟨"p1", "IRMAK", none, "active"⟩).truthy = false
      ∧ filteredProjects asciiLower [⟨"p1", "ırmak", none, "active"⟩] "ırmak" "all"
          = [⟨"p1", "ırmak", none, "active"⟩]
      ∧ filteredProjects asciiLower [⟨"p1", "ırmak", none, "active"⟩] "IRMAK" "all" = [] := by
  decide

/-! ## Expansion toggle -/

theorem isExpanded_toggle_same (s : ViewState) (projectId : String)
    (h : s.expandedProjectId = some projectId) (p : Project) :
    isExpanded (toggleProjectExpansion s projectId) p = false := by
  simp [isExpanded, toggleProjectExpansion, h]

theorem isExpanded_toggle_other (s : ViewState) (projectId : String)
    (h : s.expandedProjectId ≠ some projectId) (p : Project) :
    isExpanded (toggleProjectExpansion s projectId) p = true ↔ p.id = projectId := by
  simp only [isExpanded, toggleProjectExpansion, beq_iff_eq, h, if_false, Option.some.injEq]
  exact eq_comm

/-- Among projects with pairwise-distinct ids at most one satisfies the
expanded condition, whatever the state. -/
theorem length_filter_isExpanded_le_one (s : ViewState) (L : List Project)
    (hL : (L.map Project.id).Nodup) : (L.filter (isExpanded s)).length ≤ 1 := by
  induction L with
  | nil => simp
  | cons p ps ih =>
    rw [List.map_cons, List.nodup_cons] at hL
    obtain ⟨hp, hps⟩ := hL
    by_cases hexp : isExpanded s p = true
    · have hnone : ps.filter (isExpanded s) = [] := by
        rw [List.filter_eq_nil_iff]
        intro q hq hqexp
        apply hp
        have h1 : s.expandedProjectId = some p.id := by simpa [isExpanded] using hexp
        have h2 : s.expandedProjectId = some q.id := by simpa [isExpanded] using hqexp
        have h3 : p.id = q.id := by
          rw [h1] at h2
          exact Option.some.inj h2
        rw [h3]
        exact List.mem_map_of_mem _ hq
      simp [List.filter_cons, hexp, hnone]
    · simp only [List.filter_cons, hexp]
      exact ih hps

theorem nodup_ids_filteredProjects (toLowerCase : String → String) (L : List Project)
    (term f : String) (hL : (L.map Project.id).Nodup) :
    ((filteredProjects toLowerCase L term f).map Project.id).Nodup := by
  unfold filteredProjects
  exact List.Nodup.sublist (List.Sublist.map _ (List.filter_sublist L)) hL

/-- C6: from a state with no project expanded, toggling A and then a different
B leaves `expandedProjectId` equal to B, so that B and only B satisfies the
expanded condition; toggling A twice leaves it null, so that no project does.
The other cells of the view state are untouched. -/
theorem toggle_twice (s : ViewState) (A B : String)
    (hs : s.expandedProjectId = none) (hAB : A ≠ B) :
    (toggleProjectExpansion (toggleProjectExpansion s A) B).expandedProjectId = some B
      ∧ (∀ p, isExpanded (toggleProjectExpansion (toggleProjectExpansion s A) B) p = true ↔
          p.id = B)
      ∧ (toggleProjectExpansion (toggleProjectExpansion s A) A).expandedProjectId = none
      ∧ (∀ p, isExpanded (toggleProjectExpansion (toggleProjectExpansion s A) A) p = false)
      ∧ toggleProjectExpansion (toggleProjectExpansion s A) B = { s with expandedProjectId := some B }
      ∧ toggleProjectExpansion (toggleProjectExpansion s A) A = s := by
  have hA : toggleProjectExpansion s A = { s with expandedProjectId := some A } := by
    simp [toggleProjectExpansion, hs]
  have hB : toggleProjectExpansion (toggleProjectExpansion s A) B =
      { s with expandedProjectId := some B } := by
    rw [hA]
    simp [toggleProjectExpansion, hAB]
  have hAA : toggleProjectExpansion (toggleProjectExpansion s A) A = s := by
    rw [hA]
    simp only [toggleProjectExpansion, beq_self_eq_true, if_true]
    rw [← hs]
  refine ⟨?_, ?_, ?_, ?_, hB, hAA⟩
  · rw [hB]
  · intro p
    rw [hB]
    simp only [isExpanded, beq_iff_eq, Option.some.injEq]
    exact eq_comm
  · rw [hAA, hs]
  · intro p
    rw [hAA]
    simp [isExpanded, hs]

theorem toggle_twice_witness :
    initialState.expandedProjectId = none ∧ "p1" ≠ "p2"
      ∧ (toggleProjectExpansion (toggleProjectExpansion initialState "p1") "p2").expandedProjectId
          = some "p2"
      ∧ (toggleProjectExpansion (toggleProjectExpansion initialState "p1") "p1").expandedProjectId
          = none :=
  ⟨rfl, by decide,
    (toggle_twice initialState "p1" "p2" rfl (by decide)).1,
    (toggle_twice initialState "p1" "p2" rfl (by decide)).2.2.1⟩

/-- C8: in every state reached from the initial state by a sequence of
toggles, at most one project of a list with pairwise-distinct ids satisfies
the expanded condition (also among the filtered projects, the ones that are
rendered); toggling the id that is expanded leaves no project expanded, and
toggling any other id leaves exactly that id expanded, whatever was expanded
before. -/
theorem at_most_one_expanded (toLowerCase : String → String) (clicks : List String)
    (L : List Project) (term f projectId : String) (hL : (L.map Project.id).Nodup) :
    (L.filter (isExpanded (toggleAll initialState clicks))).length ≤ 1
      ∧ ((filteredProjects toLowerCase L term f).filter
            (isExpanded (toggleAll initialState clicks))).length ≤ 1
      ∧ ((toggleAll initialState clicks).expandedProjectId = some projectId →
          (toggleProjectExpansion (toggleAll initialState clicks) projectId).expandedProjectId
              = none
            ∧ ∀ p, isExpanded
                (toggleProjectExpansion (toggleAll initialState clicks) projectId) p = false)
      ∧ ((toggleAll initialState clicks).expandedProjectId ≠ some projectId →
          (toggleProjectExpansion (toggleAll initialState clicks) projectId).expandedProjectId
              = some projectId
            ∧ ∀ p, isExpanded
                (toggleProjectExpansion (toggleAll initialState clicks) projectId) p = true ↔
                  p.id = projectId) := by
  refine ⟨length_filter_isExpanded_le_one _ L hL,
    length_filter_isExpanded_le_one _ _ (nodup_ids_filteredProjects toLowerCase L term f hL),
    ?_, ?_⟩
  · intro h
    exact ⟨by simp [toggleProjectExpansion, h], isExpanded_toggle_same _ _ h⟩
  · intro h
    exact ⟨by simp [toggleProjectExpansion, h], isExpanded_toggle_other _ _ h⟩

theorem at_most_one_expanded_witness :
    (threeActiveTwoCompleted.map Project.id).Nodup
      ∧ (threeActiveTwoCompleted.filter
          (isExpanded (toggleAll initialState ["p1", "p3", "p3", "p5"]))).length ≤ 1
      ∧ (toggleAll initialState ["p1", "p3", "p3", "p5"]).expandedProjectId = some "p5" :=
  ⟨by decide,
    (at_most_one_expanded asciiLower ["p1", "p3", "p3", "p5"] threeActiveTwoCompleted
      "" "all" "p5" (by decide)).1,
    by decide⟩

/-! ## Loader -/

theorem loadProjects_runFrom_const (w : World) (user : User)
    (outcome : Except String (List Project)) :
    (loadProjects (some user) (fun _ => outcome)).runFrom w =
      (.ok (), afterLoad w user.uid outcome) := by
  cases outcome with
  | ok R =>
    have h : (loadProjects (some user) (fun _ => .ok R)).runFrom w =
        (.ok (),
          { view := { w.view with projects := R, loading := false }
            log := (((w.log ++ [.setLoading true]) ++ [.request user.uid])
              ++ [.setProjects R]) ++ [.setLoading false] }) := rfl
    rw [h]
    simp [afterLoad]
  | error e =>
    have h : (loadProjects (some user) (fun _ => .error e)).runFrom w =
        (.ok (),
          { view := { w.view with loading := false }
            log := (((w.log ++ [.setLoading true]) ++ [.request user.uid])
              ++ [.consoleError "Error loading projects:" e]) ++ [.setLoading false] }) := rfl
    rw [h]
    simp [afterLoad]

theorem loadProjects_runFrom_some (w : World) (user : User)
    (service : String → Except String (List Project)) :
    (loadProjects (some user) service).runFrom w =
      (.ok (), afterLoad w user.uid (service user.uid)) := by
  rw [← loadProjects_runFrom_const w user (service user.uid)]
  rfl

theorem loadProjects_runFrom_none (w : World)
    (service : String → Except String (List Project)) :
    (loadProjects none service).runFrom w =
      (.ok (),
        { view := { w.view with loading := false }
          log := w.log ++ [.setLoading true,
            .consoleError "Error loading projects:" "TypeError: Cannot read properties of null",
            .setLoading false] }) := by
  have h : (loadProjects none service).runFrom w =
      (.ok (),
        { view := { w.view with loading := false }
          log := ((w.log ++ [.setLoading true])
            ++ [.consoleError "Error loading projects:"
                  "TypeError: Cannot read properties of null"]) ++ [.setLoading false] }) := rfl
  rw [h]
  simp

/-- C7: when the data-access call fails, `loadProjects` returns normally (the
error is caught and logged, none escapes), the projects list is the one held
before the load, the loading flag ends false, and `expandedProjectId`,
`searchTerm` and `statusFilter` are unchanged; the same holds when reading
`currentUser.uid` throws because `currentUser` is null. -/
theorem loadProjects_failure (w : World) (user : User)
    (service : String → Except String (List Project)) (error : String)
    (hfail : service user.uid = .error error) :
    ((loadProjects (some user) service).runFrom w).1 = .ok ()
      ∧ ((loadProjects (some user) service).runFrom w).2.view.projects = w.view.projects
      ∧ ((loadProjects (some user) service).runFrom w).2.view.loading = false
      ∧ ((loadProjects (some user) service).runFrom w).2.view.expandedProjectId
          = w.view.expandedProjectId
      ∧ ((loadProjects (some user) service).runFrom w).2.view.searchTerm = w.view.searchTerm
      ∧ ((loadProjects (some user) service).runFrom w).2.view.statusFilter = w.view.statusFilter
      ∧ ((loadProjects (some user) service).runFrom w).2.log =
          w.log ++ [.setLoading true, .request user.uid,
            .consoleError "Error loading projects:" error, .setLoading false]
      ∧ ((loadProjects none service).runFrom w).1 = .ok ()
      ∧ ((loadProjects none service).runFrom w).2.view = { w.view with loading := false } := by
  rw [loadProjects_runFrom_some, loadProjects_runFrom_none, hfail]
  exact ⟨rfl, rfl, rfl, rfl, rfl, rfl, rfl, rfl, rfl⟩

theorem loadProjects_failure_witness :
    ((loadProjects (some ⟨"u1"⟩) (fun _ => .error "503")).runFrom
        ⟨{ initialState with projects := threeActiveTwoCompleted, loading := false }, []⟩).2.view
      = { initialState with projects := threeActiveTwoCompleted, loading := false } := by
  have h := loadProjects_failure
    ⟨{ initialState with projects := threeActiveTwoCompleted, loading := false }, []⟩
    ⟨"u1"⟩ (fun _ => .error "503") "503" rfl
  obtain ⟨-, h1, h2, h3, h4, h5, -⟩ := h
  rw [ViewState.mk.injEq]
  exact ⟨h1, h2, h3, h4, h5⟩

/-- C9: when the data-access call succeeds with list R, `loadProjects` sets
the loading flag true, then issues the request, then replaces the projects
list by R (nothing of the previous list is kept) and sets the loading flag
false, leaving the other cells untouched; and after any load, whatever the
current user and the outcome of the request, `loadProjects` returns normally
with the loading flag false. -/
theorem loadProjects_success (w : World) (user : User)
    (service : String → Except String (List Project)) (R : List Project)
    (hok : service user.uid = .ok R) :
    ((loadProjects (some user) service).runFrom w).1 = .ok ()
      ∧ ((loadProjects (some user) service).runFrom w).2.view =
          { w.view with projects := R, loading := false }
      ∧ ((loadProjects (some user) service).runFrom w).2.log =
          w.log ++ [.setLoading true, .request user.uid, .setProjects R, .setLoading false]
      ∧ ((setLoading true).runFrom w).2.view.loading = true
      ∧ (∀ (currentUser : Option User) (anyService : String → Except String (List Project)),
          ((loadProjects currentUser anyService).runFrom w).1 = .ok ()
            ∧ ((loadProjects currentUser anyService).runFrom w).2.view.loading = false) := by
  refine ⟨?_, ?_, ?_, rfl, ?_⟩
  · rw [loadProjects_runFrom_some]
  · rw [loadProjects_runFrom_some, hok]
    rfl
  · rw [loadProjects_runFrom_some, hok]
    rfl
  · intro currentUser anyService
    cases currentUser with
    | none =>
      rw [loadProjects_runFrom_none]
      exact ⟨rfl, rfl⟩
    | some u =>
      rw [loadProjects_runFrom_some]
      refine ⟨rfl, ?_⟩
      cases anyService u.uid <;> rfl

theorem loadProjects_success_witness :
    ((loadProjects (some ⟨"u1"⟩) (fun _ => .ok [⟨"p1", "Website Revamp", none, "active"⟩])).runFrom
        ⟨{ initialState with projects := threeActiveTwoCompleted }, []⟩).2.view
      = { initialState with
          projects := [⟨"p1", "Website Revamp", none, "active"⟩], loading := false } :=
  (loadProjects_success ⟨{ initialState with projects := threeActiveTwoCompleted }, []⟩
    ⟨"u1"⟩ (fun _ => .ok [⟨"p1", "Website Revamp", none, "active"⟩])
    [⟨"p1", "Website Revamp", none, "active"⟩] rfl).2.1

/-! ## Empty-state message -/

theorem emptyStateMessage_eq (searchTerm statusFilter : String) :
    emptyStateMessage searchTerm statusFilter =
      if searchTerm ≠ "" ∨ statusFilter ≠ "all" then "No projects match your filters"
      else "You are not currently assigned to any projects" := by
  unfold emptyStateMessage
  rw [truthy_jsOr]
  by_cases h1 : searchTerm = "" <;> by_cases h2 : statusFilter = "all" <;>
    simp [JSVal.truthy, h1, h2]

theorem emptyStateMessage_eq_noMatch_iff (searchTerm statusFilter : String) :
    emptyStateMessage searchTerm statusFilter = "No projects match your filters" ↔
      (searchTerm ≠ "" ∨ statusFilter ≠ "all") := by
  rw [emptyStateMessage_eq]
  by_cases h : searchTerm ≠ "" ∨ statusFilter ≠ "all"
  · simp only [h, if_true]
  · simp only [h, if_false, iff_false]
    decide

theorem emptyStateMessage_eq_notAssigned_iff (searchTerm statusFilter : String) :
    emptyStateMessage searchTerm statusFilter =
        "You are not currently assigned to any projects" ↔
      ¬ (searchTerm ≠ "" ∨ statusFilter ≠ "all") := by
  rw [emptyStateMessage_eq]
  by_cases h : searchTerm ≠ "" ∨ statusFilter ≠ "all"
  · simp only [h, if_true, not_true, iff_false]
    decide
  · simp only [h, if_false, not_false_eq_true]

/-- The project list shows the empty state with message `m` exactly when the
filtered list is empty and `m` is the message of lines 442-444. -/
theorem projectsSection_eq_emptyState_iff (toLowerCase : String → String) (s : ViewState)
    (m : String) :
    projectsSection toLowerCase s = .emptyState m ↔
      filteredProjects toLowerCase s.projects s.searchTerm s.statusFilter = []
        ∧ emptyStateMessage s.searchTerm s.statusFilter = m := by
  unfold projectsSection
  by_cases hF : filteredProjects toLowerCase s.projects s.searchTerm s.statusFilter = []
  · rw [hF]
    simp only [List.length_nil, gt_iff_lt, lt_self_iff_false, if_false,
      ProjectsSection.emptyState.injEq, true_and]
  · have hpos : (filteredProjects toLowerCase s.projects s.searchTerm s.statusFilter).length > 0 :=
      List.length_pos.mpr hF
    simp only [hpos, if_true, hF, false_and, iff_false]
    intro h
    cases h

theorem projectsSection_cards (toLowerCase : String → String) (s : ViewState)
    (hF : filteredProjects toLowerCase s.projects s.searchTerm s.statusFilter ≠ []) :
    projectsSection toLowerCase s =
      .cards (filteredProjects toLowerCase s.projects s.searchTerm s.statusFilter) := by
  unfold projectsSection
  have hpos : (filteredProjects toLowerCase s.projects s.searchTerm s.statusFilter).length > 0 :=
    List.length_pos.mpr hF
  simp only [hpos, if_true]

/-- The "not assigned" message is rendered exactly when no project is loaded
and no filter is active. -/
theorem projectsSection_notAssigned_iff (toLowerCase : String → String)
    (h0 : toLowerCase "" = "") (s : ViewState) :
    projectsSection toLowerCase s =
        .emptyState "You are not currently assigned to any projects" ↔
      s.projects = [] ∧ s.searchTerm = "" ∧ s.statusFilter = "all" := by
  rw [projectsSection_eq_emptyState_iff, emptyStateMessage_eq_notAssigned_iff,
    not_or, not_not, not_not]
  constructor
  · rintro ⟨hF, hterm, hfilter⟩
    rw [hterm, hfilter, filteredProjects_empty_search toLowerCase h0] at hF
    exact ⟨by simpa using hF, hterm, hfilter⟩
  · rintro ⟨hL, hterm, hfilter⟩
    refine ⟨?_, hterm, hfilter⟩
    rw [hL]
    rfl

/-- C10: the project list shows the empty state exactly when the filtered list
is empty, and the cards of the filtered projects otherwise.  The message shown
is "No projects match your filters" if and only if the filtered list is empty
and a filter is active (the search term is non-empty or the status filter is
not "all"); otherwise the message of the empty state is "You are not currently
assigned to any projects", and that message is rendered exactly when no filter
is active and the loaded project list itself is empty. -/
theorem emptyState_message (toLowerCase : String → String) (h0 : toLowerCase "" = "")
    (s : ViewState) :
    (filteredProjects toLowerCase s.projects s.searchTerm s.statusFilter = [] →
        projectsSection toLowerCase s =
          .emptyState (emptyStateMessage s.searchTerm s.statusFilter))
      ∧ (filteredProjects toLowerCase s.projects s.searchTerm s.statusFilter ≠ [] →
          projectsSection toLowerCase s =
            .cards (filteredProjects toLowerCase s.projects s.searchTerm s.statusFilter))
      ∧ (s.loading = false →
          filteredProjects toLowerCase s.projects s.searchTerm s.statusFilter = [] →
          render toLowerCase s = .page (projectStats s.projects)
            (.emptyState (emptyStateMessage s.searchTerm s.statusFilter)))
      ∧ (emptyStateMessage s.searchTerm s.statusFilter = "No projects match your filters" ↔
          (s.searchTerm ≠ "" ∨ s.statusFilter ≠ "all"))
      ∧ (emptyStateMessage s.searchTerm s.statusFilter =
            "You are not currently assigned to any projects" ↔
          ¬ (s.searchTerm ≠ "" ∨ s.statusFilter ≠ "all"))
      ∧ (projectsSection toLowerCase s = .emptyState "No projects match your filters" ↔
          filteredProjects toLowerCase s.projects s.searchTerm s.statusFilter = []
            ∧ (s.searchTerm ≠ "" ∨ s.statusFilter ≠ "all"))
      ∧ (projectsSection toLowerCase s =
            .emptyState "You are not currently assigned to any projects" ↔
          s.projects = [] ∧ s.searchTerm = "" ∧ s.statusFilter = "all")
      ∧ (projectsSection toLowerCase s =
            .emptyState "You are not currently assigned to any projects" → s.projects = [])
      ∧ (∀ stats, render toLowerCase s =
            .page stats (.emptyState "You are not currently assigned to any projects") →
          s.projects = []) := by
  have hsec : filteredProjects toLowerCase s.projects s.searchTerm s.statusFilter = [] →
      projectsSection toLowerCase s =
        .emptyState (emptyStateMessage s.searchTerm s.statusFilter) := by
    intro hF
    exact (projectsSection_eq_emptyState_iff toLowerCase s _).mpr ⟨hF, rfl⟩
  have hna := projectsSection_notAssigned_iff toLowerCase h0 s
  refine ⟨hsec, projectsSection_cards toLowerCase s, ?_,
    emptyStateMessage_eq_noMatch_iff _ _, emptyStateMessage_eq_notAssigned_iff _ _, ?_,
    hna, fun h => (hna.mp h).1, ?_⟩
  · intro hl hF
    simp [render, hl, hsec hF]
  · rw [projectsSection_eq_emptyState_iff, emptyStateMessage_eq_noMatch_iff]
  · intro stats hr
    unfold render at hr
    by_cases hl : s.loading = true
    · simp [hl] at hr
    · simp only [hl, Bool.false_eq_true, if_false, Rendered.page.injEq] at hr
      exact (hna.mp hr.2).1

theorem emptyState_message_witness :
    asciiLower "" = "" ∧
      projectsSection asciiLower
          { initialState with
            projects := threeActiveTwoCompleted, loading := false, searchTerm := "zebra" } =
        .emptyState "No projects match your filters"
      ∧ projectsSection asciiLower
          { initialState with projects := threeActiveTwoCompleted, loading := false } =
        .cards threeActiveTwoCompleted :=
  ⟨asciiLower_empty,
    (emptyState_message asciiLower asciiLower_empty
      { initialState with
        projects := threeActiveTwoCompleted, loading := false, searchTerm := "zebra" }).1
      (by decide),
    (emptyState_message asciiLower asciiLower_empty
      { initialState with projects := threeActiveTwoCompleted, loading := false }).2.1
      (by decide)⟩

/-! ## Summary counts and the filter -/

theorem filteredProjects_empty_search_status (toLowerCase : String → String)
    (h0 : toLowerCase "" = "") (L : List Project) (f : String) (hf : (f == "all") = false) :
    filteredProjects toLowerCase L "" f = L.filter (fun p => p.status == f) := by
  rw [filteredProjects_empty_search toLowerCase h0]
  congr 1
  funext p
  rw [hf, Bool.false_or]

/-- C11: the summary counts do not depend on the view filters: they are the
same whatever the search term and the status filter are, and the rendered page
shows the counts of the loaded list; `active`, `completed` and `onHold` are the
lengths of the filtered lists for an empty search term and the status filters
"active", "completed" and "on-hold"; and no filtered list is longer than
`total`. -/
theorem projectStats_agrees_with_filter (toLowerCase : String → String)
    (h0 : toLowerCase "" = "") (s : ViewState) (L : List Project) (term f : String) :
    summaryCounts { s with searchTerm := term, statusFilter := f } = projectStats s.projects
      ∧ (s.loading = false →
          render toLowerCase { s with searchTerm := term, statusFilter := f } =
            .page (projectStats s.projects)
              (projectsSection toLowerCase { s with searchTerm := term, statusFilter := f }))
      ∧ (projectStats L).active = (filteredProjects toLowerCase L "" "active").length
      ∧ (projectStats L).completed = (filteredProjects toLowerCase L "" "completed").length
      ∧ (projectStats L).onHold = (filteredProjects toLowerCase L "" "on-hold").length
      ∧ (filteredProjects toLowerCase L term f).length ≤ (projectStats L).total := by
  refine ⟨rfl, ?_, ?_, ?_, ?_, ?_⟩
  · intro hl
    simp [render, hl]
  · rw [filteredProjects_empty_search_status toLowerCase h0 L "active" (by decide)]
    rfl
  · rw [filteredProjects_empty_search_status toLowerCase h0 L "completed" (by decide)]
    rfl
  · rw [filteredProjects_empty_search_status toLowerCase h0 L "on-hold" (by decide)]
    rfl
  · show (filteredProjects toLowerCase L term f).length ≤ L.length
    unfold filteredProjects
    exact List.length_filter_le _ L

theorem projectStats_agrees_with_filter_witness :
    asciiLower "" = "" ∧
      (projectStats threeActiveTwoCompleted).active =
        (filteredProjects asciiLower threeActiveTwoCompleted "" "active").length
      ∧ (projectStats threeActiveTwoCompleted).active = 3
      ∧ (filteredProjects asciiLower threeActiveTwoCompleted "app" "all").length ≤
        (projectStats threeActiveTwoCompleted).total :=
  ⟨asciiLower_empty,
    (projectStats_agrees_with_filter asciiLower asciiLower_empty initialState
      threeActiveTwoCompleted "app" "all").2.2.1,
    by decide,
    (projectStats_agrees_with_filter asciiLower asciiLower_empty initialState
      threeActiveTwoCompleted "app" "all").2.2.2.2.2⟩

end EmployeeProjects
